import Mathlib

/-!
A verification development for `tenper.py`, a tmux wrapper with virtualenv
support.  The program is embedded shallowly: strings are `List Char`,
external processes and filesystem operations become an explicit effect
trace, and the ambient operating system (filesystem contents, environment
variables, tmux's answers, the user's answers) is a `World` record.
Python's `str.format`, `str.split`, `re.sub` and the YAML subset the
program's configuration template uses are implemented directly.
-/

namespace Tenper

/-- Python strings, embedded as lists of characters. -/
abbrev Chars := List Char

/-! ## Python `str.format` (the subset the program uses)

`tenper.py` formats templates with keyword arguments only, fields are plain
names (`{env}`, `{session}`), plus the `{{`/`}}` escapes.  Format
specifications, positional fields and attribute access never occur in the
program and are outside the model: a field is looked up whole and a missing
key is a `KeyError`, an unbalanced brace a `ValueError`. -/

/-- Scanner for `pyFormat`: `none` = outside braces, `some acc` = inside a
replacement field with `acc` the reversed field name read so far. -/
def pyFormatAux (kw : List (Chars × Chars)) : Option Chars → Chars → Except String Chars
  | none, [] => .ok []
  | none, '{' :: '{' :: r => (pyFormatAux kw none r).map (fun t => '{' :: t)
  | none, '}' :: '}' :: r => (pyFormatAux kw none r).map (fun t => '}' :: t)
  | none, '{' :: r => pyFormatAux kw (some []) r
  | none, '}' :: _ => .error "ValueError: single closing brace"
  | none, c :: r => (pyFormatAux kw none r).map (fun t => c :: t)
  | some _, [] => .error "ValueError: unmatched opening brace"
  | some acc, '}' :: r =>
    match kw.lookup acc.reverse with
    | some v => (pyFormatAux kw none r).map (fun t => v ++ t)
    | none => .error "KeyError"
  | some acc, c :: r => pyFormatAux kw (some (c :: acc)) r

/-- Python `template.format(**kw)` restricted as documented above. -/
def pyFormat (kw : List (Chars × Chars)) (template : Chars) : Except String Chars :=
  pyFormatAux kw none template

/-- Python `str.split(sep)` for a one-character separator: consecutive
separators yield empty segments, the result is never empty. -/
def splitOnChar (sep : Char) : Chars → List Chars
  | [] => [[]]
  | c :: r =>
    if c = sep then [] :: splitOnChar sep r
    else
      match splitOnChar sep r with
      | [] => [[c]]
      | l :: ls => (c :: l) :: ls

theorem splitOnChar_ne_nil (sep : Char) (s : Chars) : splitOnChar sep s ≠ [] := by
  induction s with
  | nil => simp [splitOnChar]
  | cons c r ih =>
    simp only [splitOnChar]
    split
    · simp
    · match h : splitOnChar sep r with
      | [] => exact absurd h ih
      | l :: ls => simp

/-- `command_list` (tenper.py lines 59-78): split the template on single
spaces, then apply the keyword substitutions to each segment.  The split
happens before the substitution, so a substituted value may contain
spaces without being split further. -/
def command_list (kw : List (Chars × Chars)) (template : Chars) : Except String (List Chars) :=
  (splitOnChar ' ' template).mapM (pyFormat kw)

theorem length_dropWhile_le (p : Char → Bool) (l : Chars) :
    (l.dropWhile p).length ≤ l.length := by
  induction l with
  | nil => simp
  | cons c r ih =>
    by_cases h : p c
    · simp only [List.dropWhile_cons, h, if_true]
      exact Nat.le_succ_of_le ih
    · simp [List.dropWhile_cons, h]

/-! ## `re.sub` over `$NAME` (tenper.py lines 238-241)

The environment-variable substitution applied to values of the
configuration's `environment` mapping: every occurrence of
`\$([a-zA-Z][a-zA-Z0-9_]*)` is replaced by the operating-system
environment's value, or by the empty string when the variable is unset. -/

def isAsciiAlpha (c : Char) : Bool :=
  ('a' ≤ c && c ≤ 'z') || ('A' ≤ c && c ≤ 'Z')

def isAsciiDigit (c : Char) : Bool := '0' ≤ c && c ≤ '9'

def isVarChar (c : Char) : Bool := isAsciiAlpha c || isAsciiDigit c || c = '_'

/-- The scanner, with enough structural fuel to cover the input: every
step consumes at least one character. -/
def envsubFuel (g : Chars → Option Chars) : Nat → Chars → Chars
  | 0, _ => []
  | _ + 1, [] => []
  | f + 1, '$' :: c :: r =>
    if isAsciiAlpha c then
      (g (c :: r.takeWhile isVarChar)).getD [] ++ envsubFuel g f (r.dropWhile isVarChar)
    else
      '$' :: envsubFuel g f (c :: r)
  | f + 1, c :: r => c :: envsubFuel g f r

def envsubChars (g : Chars → Option Chars) (s : Chars) : Chars :=
  envsubFuel g (s.length + 1) s

/-- The substitution over ordinary strings, the OS environment given as a
lookup function. -/
def envsub (g : String → Option String) (s : String) : String :=
  String.mk (envsubChars (fun n => (g (String.mk n)).map String.data) s.data)

/-! ## The YAML loader (`yaml.load`, used by `config_for`)

`tenper.py` parses its configuration files with PyYAML.  The subset
implemented here is the block syntax the configuration template uses:
indentation-nested mappings with plain-scalar keys, block sequences,
plain scalars with trailing `#` comments, full-line comments and blank
lines, and PyYAML's implicit resolution of null, boolean, integer and
`yyyy-mm-dd` timestamp scalars.  Flow syntax, quoted and block scalars,
anchors, multi-line plain scalars and float resolution are outside the
subset.  As in YAML, a plain scalar may not contain `: ` (nor end in a
colon): such a line is a parse error ("mapping values are not allowed
here"); a value that starts with a `-` followed by a space or the line
end is a parse error too ("sequence entries are not allowed here"); and
a `#` preceded by a space starts a comment. -/

/-- The parsed YAML document.  `stamp` marks a scalar PyYAML would resolve
as a timestamp (a `datetime.date`, not a string). -/
inductive Yaml where
  | null
  | bool (b : Bool)
  | int (n : Int)
  | stamp (s : Chars)
  | str (s : Chars)
  | map (es : List (Chars × Yaml))
  | seq (xs : List Yaml)

inductive YErr where
  | noColon
  | badIndent
  | badScalar
  | seqEntry
  | mixed
  | trailingDoc
  | fuel
deriving DecidableEq, Repr

/-- Leading spaces of a line, counted and removed. -/
def splitIndent : Chars → Nat × Chars
  | ' ' :: r => ((splitIndent r).1 + 1, (splitIndent r).2)
  | l => (0, l)

/-- A line as the block parser sees it: `none` for blank lines and
full-line comments, otherwise the indentation and the content. -/
def sigLine (l : Chars) : Option (Nat × Chars) :=
  match splitIndent l with
  | (_, []) => none
  | (n, c) => if c.head? = some '#' then none else some (n, c)

/-- Strip trailing spaces. -/
def stripTrail (s : Chars) : Chars := (s.reverse.dropWhile (· = ' ')).reverse

/-- Truncate a plain scalar at a comment: a `#` preceded by a space. -/
def cutComment : Chars → Chars
  | [] => []
  | c :: r => if c = ' ' ∧ r.head? = some '#' then [] else c :: cutComment r

/-- Whether the text holds a `: ` or ends in `:`, which a plain scalar
may not. -/
def hasColonSp : Chars → Bool
  | [] => false
  | c :: r => if c = ':' ∧ (r = [] ∨ r.head? = some ' ') then true else hasColonSp r

/-- Split a mapping line at the first `:` that is followed by a space or
ends the line; the key is returned with trailing spaces stripped. -/
def findKey (acc : Chars) : Chars → Option (Chars × Chars)
  | [] => none
  | ':' :: r =>
    match r with
    | [] => some (stripTrail acc.reverse, [])
    | ' ' :: _ => some (stripTrail acc.reverse, r)
    | _ => findKey (':' :: acc) r
  | c :: r => findKey (c :: acc) r

/-- Whether the text starts with the block-sequence-entry indicator: a
`-` that is followed by a space or ends the text.  (A `-` followed by
another character starts an ordinary plain scalar.) -/
def dashStart : Chars → Bool
  | [] => false
  | d :: r => d = '-' && (r = [] || r.head? = some ' ')

def nullLits : List Chars := ["~", "null", "Null", "NULL"].map String.data

def trueLits : List Chars :=
  ["yes", "Yes", "YES", "true", "True", "TRUE", "on", "On", "ON"].map String.data

def falseLits : List Chars :=
  ["no", "No", "NO", "false", "False", "FALSE", "off", "Off", "OFF"].map String.data

def isHexDigitC (c : Char) : Bool :=
  isAsciiDigit c || ('a' ≤ c && c ≤ 'f') || ('A' ≤ c && c ≤ 'F')

def digitVal (c : Char) : Nat :=
  if isAsciiDigit c then c.toNat - '0'.toNat
  else if 'a' ≤ c && c ≤ 'f' then c.toNat - 'a'.toNat + 10
  else if 'A' ≤ c && c ≤ 'F' then c.toNat - 'A'.toNat + 10
  else 0

/-- Value of a digit run, skipping the `_` separators YAML 1.1 allows. -/
def digitsVal (base : Nat) (r : Chars) : Nat :=
  r.foldl (fun a c => if c = '_' then a else a * base + digitVal c) 0

/-- YAML 1.1 integer literals over the characters plain names use:
binary, hexadecimal, octal (leading 0) and decimal, optionally signed.
Sexagesimal integers contain `:` and never reach the resolver here. -/
def isIntLit (s : Chars) : Bool :=
  let t := match s with
    | '-' :: r => r
    | '+' :: r => r
    | r => r
  match t with
  | '0' :: 'b' :: r => !r.isEmpty && r.all (fun c => c = '0' || c = '1' || c = '_')
  | '0' :: 'x' :: r => !r.isEmpty && r.all (fun c => isHexDigitC c || c = '_')
  | ['0'] => true
  | '0' :: r => !r.isEmpty && r.all (fun c => ('0' ≤ c && c ≤ '7') || c = '_')
  | c :: r => isAsciiDigit c && c ≠ '0' && r.all (fun d => isAsciiDigit d || d = '_')
  | [] => false

def intLitVal (s : Chars) : Int :=
  let sign : Int := if s.head? = some '-' then -1 else 1
  let t := match s with
    | '-' :: r => r
    | '+' :: r => r
    | r => r
  let mag : Nat := match t with
    | '0' :: 'b' :: r => digitsVal 2 r
    | '0' :: 'x' :: r => digitsVal 16 r
    | ['0'] => 0
    | '0' :: r => digitsVal 8 r
    | r => digitsVal 10 r
  sign * mag

/-- The `yyyy-mm-dd` timestamp form; the longer timestamp forms contain
`:` or spaces and never reach the resolver from a plain scalar here. -/
def isDateLit : Chars → Bool
  | [a, b, c, d, '-', e, f, '-', g, h] =>
    isAsciiDigit a && isAsciiDigit b && isAsciiDigit c && isAsciiDigit d &&
      isAsciiDigit e && isAsciiDigit f && isAsciiDigit g && isAsciiDigit h
  | _ => false

/-- PyYAML's implicit resolution of a plain scalar (floats excluded: every
YAML 1.1 float literal contains a `.` or `:`, and none occurs in the
program's template or in the names the theorems below quantify over). -/
def resolveScalar (s : Chars) : Yaml :=
  if s ∈ nullLits then .null
  else if s ∈ trueLits then .bool true
  else if s ∈ falseLits then .bool false
  else if isIntLit s then .int (intLitVal s)
  else if isDateLit s then .stamp s
  else .str s

/-- Parse the text after a mapping colon (or a whole sequence-scalar line)
as a plain scalar: strip spaces and comment; empty means null.  A text
that the scanner reads as a block-sequence-entry indicator (a `-`
followed by a space or the end of the line) is the PyYAML error
"sequence entries are not allowed here", as on `key: - item`. -/
def parseScalar (raw : Chars) : Except YErr Yaml :=
  let v := raw.dropWhile (· = ' ')
  if v.head? = some '#' then .ok .null
  else
    let v3 := stripTrail (cutComment v)
    if v3 = [] then .ok .null
    else if hasColonSp v3 then .error .badScalar
    else if dashStart v3 then .error .seqEntry
    else .ok (resolveScalar v3)

/-- The scalar text after the colon once spaces and comment are stripped;
empty means the value is on the following (deeper-indented) lines. -/
def scalarCore (raw : Chars) : Chars :=
  stripTrail (cutComment (raw.dropWhile (· = ' ')))

/-- The significant lines of a document: indentation and content. -/
abbrev YLines := List (Nat × Chars)

mutual

/-- Parse one block node.  The node's indentation is its first line's,
which must exceed `parent`'s.  The fuel argument only bounds the
recursion (structurally); `parseYamlLines` supplies more than any
document can consume. -/
def parseNode : Nat → Option Nat → YLines → Except YErr (Yaml × YLines)
  | 0, _, _ => .error .fuel
  | _ + 1, _, [] => .ok (.null, [])
  | fuel + 1, parent, (n, c) :: rest =>
    if (match parent with | some p => decide (n ≤ p) | none => false) then
      .error .badIndent
    else if dashStart c then
      (parseSeqItems fuel n ((n, c) :: rest)).map (fun p => (.seq p.1, p.2))
    else
      match findKey [] c with
      | some _ => (parseMapEntries fuel n ((n, c) :: rest)).map (fun p => (.map p.1, p.2))
      | none => do
        let v ← parseScalar c
        .ok (v, rest)

/-- Parse the entries of a block mapping whose keys sit at indentation
`n`; stops before the first line indented less than `n`. -/
def parseMapEntries : Nat → Nat → YLines → Except YErr (List (Chars × Yaml) × YLines)
  | 0, _, _ => .error .fuel
  | _ + 1, _, [] => .ok ([], [])
  | fuel + 1, n, (i, c) :: rest =>
    if i < n then .ok ([], (i, c) :: rest)
    else if n < i then .error .badIndent
    else if dashStart c then .error .mixed
    else
      match findKey [] c with
      | none => .error .noColon
      | some (k, raw) =>
        if scalarCore raw = [] then
          match rest with
          | (i2, c2) :: rest2 =>
            if n < i2 then do
              let (v, rest') ← parseNode fuel (some n) ((i2, c2) :: rest2)
              let (es, rest'') ← parseMapEntries fuel n rest'
              .ok ((k, v) :: es, rest'')
            else do
              let (es, rest') ← parseMapEntries fuel n ((i2, c2) :: rest2)
              .ok ((k, .null) :: es, rest')
          | [] => .ok ([(k, .null)], [])
        else do
          let v ← parseScalar raw
          let (es, rest') ← parseMapEntries fuel n rest
          .ok ((k, v) :: es, rest')

/-- Parse the entries of a block sequence whose dashes sit at indentation
`n`; stops before the first line indented less than `n`. -/
def parseSeqItems : Nat → Nat → YLines → Except YErr (List Yaml × YLines)
  | 0, _, _ => .error .fuel
  | _ + 1, _, [] => .ok ([], [])
  | fuel + 1, n, (i, c) :: rest =>
    if i < n then .ok ([], (i, c) :: rest)
    else if n < i then .error .badIndent
    else
      match c with
      | '-' :: t =>
        match splitIndent t with
        | (_, []) =>
          match rest with
          | (i2, c2) :: rest2 =>
            if n < i2 then do
              let (v, rest') ← parseNode fuel (some n) ((i2, c2) :: rest2)
              let (xs, rest'') ← parseSeqItems fuel n rest'
              .ok (v :: xs, rest'')
            else do
              let (xs, rest') ← parseSeqItems fuel n ((i2, c2) :: rest2)
              .ok (.null :: xs, rest')
          | [] => .ok ([.null], [])
        | (k, body) => do
          let (v, rest') ← parseNode fuel (some n) ((n + 1 + k, body) :: rest)
          let (xs, rest'') ← parseSeqItems fuel n rest'
          .ok (v :: xs, rest'')
      | _ => .error .mixed

end

/-- Parse a whole document from its significant lines. -/
def parseYamlLines (ls : YLines) : Except YErr Yaml := do
  let (v, rest) ← parseNode (8 * ls.length + 8) none ls
  if rest = [] then .ok v else .error .trailingDoc

/-- `yaml.load` on the modelled subset. -/
def yamlLoadChars (s : Chars) : Except YErr Yaml :=
  parseYamlLines ((splitOnChar '\n' s).filterMap sigLine)

def yamlLoad (s : String) : Except YErr Yaml := yamlLoadChars s.data

/-! ## The data model

A parsed configuration, as `start`, `rebuild` and `confirm_virtualenv`
read it out of the YAML dictionary: the `session name`, the optional
`virtualenv` section, the `project root`, the `environment` mapping in
document order, and the ordered `windows`, each with ordered `panes`.
Python truthiness is kept: an absent optional section is `none`, an empty
string is falsy where the source tests truthiness. -/

structure Virtualenv where
  /-- `python binary`; `/usr/bin/python` when absent. -/
  pythonBinary : Option String
  /-- `site packages?`; false when absent. -/
  sitePackages : Bool
  /-- `path`; the shared `~/.virtualenvs` location when absent or empty. -/
  path : Option String
deriving DecidableEq, Repr

structure Window where
  name : String
  layout : Option String
  panes : List String
deriving DecidableEq, Repr

structure Config where
  sessionName : String
  virtualenv : Option Virtualenv
  projectRoot : String
  environment : List (String × String)
  windows : List Window
deriving DecidableEq, Repr

/-- One external command invocation, with its arguments already formatted
(each constructor names the `run`/`check_output` template it stands for,
tenper.py lines 130, 209-320). -/
inductive Cmd where
  /-- `virtualenv -p {python_binary} {site_packages} {dir}` -/
  | virtualenvCreate (pythonBinary sitePackages dir : String)
  /-- `tmux has-session -t {session}` -/
  | hasSession (session : String)
  /-- `tmux -2 attach-session -t {session}` -/
  | attachSession (session : String)
  /-- `tmux new-session -d -s {session}` -/
  | newSession (session : String)
  /-- `tmux set-option -t {session} {option} {value}` -/
  | setOption (session option value : String)
  /-- `tmux set-environment -t {session} {key} {value}` -/
  | setEnvironment (session key value : String)
  /-- `tmux list-windows -t {session}` (a `check_output` query) -/
  | listWindows (session : String)
  /-- `tmux new-window -d -t {target} -n {name}` -/
  | newWindow (target name : String)
  /-- `tmux kill-window -t {target}` -/
  | killWindow (target : String)
  /-- `tmux move-window -s {src} -t {dst}` -/
  | moveWindow (src dst : String)
  /-- `tmux list-panes -t {target}` (a `check_output` query) -/
  | listPanes (target : String)
  /-- `tmux split-window -t {target}` -/
  | splitWindow (target : String)
  /-- `tmux send-keys -t {target} {command} ENTER` -/
  | sendKeys (target command : String)
  /-- `tmux select-layout -t {target} {layout}` -/
  | selectLayout (target layout : String)
  /-- `tmux select-pane -t {target}` -/
  | selectPane (target : String)
  /-- `{editor} {file}` (the `edit` operation) -/
  | runEditor (editor file : String)
deriving DecidableEq, Repr

/-- One observable effect of a tenper operation, in program order. -/
inductive Eff where
  | run (c : Cmd)
  | rmtree (path : String)
  | removeFile (path : String)
  | tryRmdir (path : String)
  | mkdir (path : String)
  | writeFile (path : String) (content : Chars)
  | print (s : String)
  | prompt (s : String)
deriving DecidableEq, Repr

/-- The exceptions the program can raise. -/
inductive PyErr where
  /-- `shutil.rmtree` on a path that does not exist. -/
  | fileNotFound (path : String)
  /-- `config_for`'s own Exception, reporting the environment and the
  checked path. -/
  | missingConfig (env : String) (path : String)
  /-- `yaml.load` failing on the file's content. -/
  | yamlError (e : YErr)
deriving DecidableEq, Repr

/-- The ambient operating system as the program observes it. -/
structure World where
  /-- `os.path.expanduser('~')`. -/
  home : String
  /-- `$EDITOR`. -/
  editor : String
  /-- `os.path.expandvars`. -/
  expandvars : String → String
  /-- `os.environ.get`. -/
  osEnv : String → Option String
  /-- `os.path.exists` for directories (virtualenv paths). -/
  pathExists : String → Bool
  /-- A file's content when it exists (`os.path.exists` + `open`). -/
  fileContents : String → Option String
  /-- Whether `tmux has-session -t s` exits 0. -/
  sessionExists : String → Bool
  /-- The window base index parsed from `tmux list-windows` output. -/
  baseIndex : Nat
  /-- The pane base index parsed from `tmux list-panes`, per window
  position. -/
  basePIndex : Nat → Nat
  /-- `os.listdir` on the configuration directory; `none` when the
  directory does not exist. -/
  configsListing : Option (List String)

/-- `os.path.join` for the relative components the program joins. -/
def joinPath (a b : String) : String := a ++ "/" ++ b

/-- Python `f.endswith('.yml')`. -/
def endsWithYml (s : String) : Bool := List.isSuffixOf ".yml".data s.data

/-- Python `f[0:-4]`: the string without its last four characters. -/
def dropLast4 (s : String) : String := String.mk (s.data.take (s.data.length - 4))

/-- Python whitespace, as `str.strip()` removes it. -/
def isPySpace (c : Char) : Bool :=
  c = ' ' || c = '\t' || c = '\n' || c = '\r' || c = '\x0b' || c = '\x0c'

/-- Python `resp.strip()`. -/
def pyStrip (s : String) : String :=
  String.mk (((s.data.dropWhile isPySpace).reverse.dropWhile isPySpace).reverse)

/-- A command-line token argparse reads as an option: it starts with `-`. -/
def isOptionToken (s : String) : Bool := s.data.head? = some '-'

/-- `~/.tenper` (tenper.py line 21). -/
def configsDir (w : World) : String := joinPath w.home ".tenper"

/-- `~/.virtualenvs` (tenper.py line 22). -/
def virtualenvsDir (w : World) : String := joinPath w.home ".virtualenvs"

/-- `os.path.join(configs, '{}.yml'.format(env))`. -/
def configFilePath (w : World) (env : String) : String :=
  joinPath (configsDir w) (env ++ ".yml")

/-! ## The configuration template and the operations -/

/-- `config_template` (tenper.py lines 23-56), character for character. -/
def config_template : Chars := "# Shows up in 'tmux list-sessions' and on the left side of the status bar.
session name: {env}

# Optional; if provided, the virtualenv activate script will be sourced in all
# new windows and panes by setting tmux's default-command option.
virtualenv:
    python binary: /usr/bin/python
    site packages?: false
    path: $HOME/.venv #optional path to virtualenv

# When starting a tenper session, all windows and panes will be changed to this
# directory.
project root: $HOME

# Environment variables (only available inside the tmux session).
environment:
    MYKEY: myvalue
    PATH: $PATH:/foo/bar/baz

windows:
  - name: One
    panes:
      - ls -l

  - name: Two
    # Layout of the panes: even-horizontal, even-vertical, main-horizontal,
    # main-vertical, or tiled. You can also specify the layout string in the
    # list-windows command (see the layout section section in tmux's man page).
    layout: main-vertical
    panes:
        - ls
        - vim
        - top
".data

/-- The file content `edit` writes for a new environment:
`config_template.format(env=env)`.  The template is concrete and
well-formed, so the format never errors. -/
def writtenConfig (env : Chars) : Chars :=
  match pyFormat [("env".data, env)] config_template with
  | .ok s => s
  | .error _ => []

/-- `config_for` (tenper.py lines 87-105): the parsed YAML of the
environment's file, or the missing-configuration exception naming the
checked path. -/
def config_for (w : World) (env : String) : Except PyErr Yaml :=
  match w.fileContents (configFilePath w env) with
  | some s => (yamlLoad s).mapError .yamlError
  | none => .error (.missingConfig env (configFilePath w env))

/-- The virtualenv directory `confirm_virtualenv` resolves (tenper.py
lines 120-121): the expanded custom `path` when given (and truthy), else
`~/.virtualenvs/<session name>`. -/
def resolvedVenvPath (w : World) (c : Config) (v : Virtualenv) : String :=
  match v.path with
  | some p => if p ≠ "" then w.expandvars p else joinPath (virtualenvsDir w) c.sessionName
  | none => joinPath (virtualenvsDir w) c.sessionName

/-- The `virtualenv` invocation of tenper.py lines 130-134. -/
def venvCreateCmd (w : World) (c : Config) (v : Virtualenv) : Cmd :=
  .virtualenvCreate (v.pythonBinary.getD "/usr/bin/python")
    (if v.sitePackages then "--system-site-packages" else "--no-site-packages")
    (resolvedVenvPath w c v)

/-- `confirm_virtualenv` (tenper.py lines 108-134).  With `delete_first`
the existing directory is removed first; `shutil.rmtree` on a missing
path raises, which the source does not catch. -/
def confirm_virtualenv (w : World) (c : Config) (delete_first : Bool) :
    Except PyErr (List Eff) :=
  match c.virtualenv with
  | none => .ok []
  | some v =>
    let path := resolvedVenvPath w c v
    if w.pathExists path && !delete_first then .ok []
    else if delete_first then
      if w.pathExists path then .ok [.rmtree path, .run (venvCreateCmd w c v)]
      else .error (.fileNotFound path)
    else .ok [.run (venvCreateCmd w c v)]

/-- `rebuild` (tenper.py lines 190-193):
`confirm_virtualenv(config_for(env), delete_first=True)`, here applied to
the already-read configuration record. -/
def rebuild (w : World) (c : Config) : Except PyErr (List Eff) :=
  confirm_virtualenv w c true

/-- `list_envs` (tenper.py lines 137-143). -/
def list_envs (w : World) : List Eff :=
  match w.configsListing with
  | none => []
  | some fs => (fs.filter endsWithYml).map (fun f => .print (dropLast4 f))

/-- `edit` (tenper.py lines 146-157). -/
def edit (w : World) (env : String) : List Eff :=
  (if w.configsListing.isSome then [] else [.mkdir (configsDir w)]) ++
  (match w.fileContents (configFilePath w env) with
   | some _ => []
   | none => [.writeFile (configFilePath w env) (writtenConfig env.data)]) ++
  [.run (.runEditor w.editor (configFilePath w env))]

/-- The affirmative answers `delete` accepts (tenper.py line 176). -/
def affirmatives : List String := ["yes", "YES", "y", "Y"]

/-- `delete` (tenper.py lines 160-187): when the environment's virtualenv
directory exists the user is prompted and an affirmative (stripped)
answer removes it; the configuration file is then removed and the
configuration directory cleanup attempted. -/
def delete (w : World) (resp : String) (env : String) : List Eff :=
  let config_file := configFilePath w env
  let venv := joinPath (virtualenvsDir w) env
  (if w.pathExists venv then
    [.prompt ("There's a virtualenv for this environment in " ++ venv ++
        ". Do you want to delete it? ")] ++
    (if affirmatives.contains (pyStrip resp) then
      [.rmtree venv, .print ("Deleted " ++ venv ++ ".")]
    else [])
   else []) ++
  [.removeFile config_file, .print ("Removed " ++ config_file ++ "."),
   .tryRmdir (configsDir w)]

/-! ## `start` (tenper.py lines 196-321) -/

/-- The activate script sourced in every pane (tenper.py lines 200-206):
`expandvars(join(path or join(virtualenvs, session), 'bin', 'activate'))`. -/
def virtualenvActivate (w : World) (c : Config) : Option String :=
  c.virtualenv.map (fun v =>
    w.expandvars (joinPath (joinPath
      (match v.path with
       | some p => if p ≠ "" then p else joinPath (virtualenvsDir w) c.sessionName
       | none => joinPath (virtualenvsDir w) c.sessionName) "bin") "activate"))

/-- The commands issued for one pane (tenper.py lines 292-309): a
split for every pane but the first, a `send-keys` sourcing the activate
script when a virtualenv is used, and a `send-keys` running the pane's
command when it is non-empty. -/
def paneCmds (vp : Option String) (window_target : String) (base_pindex : Nat)
    (pp : Nat × String) : List Cmd :=
  let pane_target := window_target ++ "." ++ toString (base_pindex + pp.1)
  (if pp.1 ≠ 0 then [.splitWindow (window_target ++ ".0")] else []) ++
  (match vp with
   | some p => [.sendKeys pane_target ("source " ++ p)]
   | none => []) ++
  (if pp.2 ≠ "" then [.sendKeys pane_target pp.2] else [])

/-- The commands issued for one window (tenper.py lines 260-318): the
first window is created at a temporary index, the initial window killed
and the new one moved into its place; later windows are created directly.
Then the pane base index is queried, the panes set up, the optional
layout selected and the base pane selected. -/
def windowCmds (w : World) (session : String) (vp : Option String)
    (base_index : Nat) (iw : Nat × Window) : List Cmd :=
  let window_target := session ++ ":" ++ toString (base_index + iw.1)
  (if iw.1 = 0 then
    [.newWindow (session ++ ":" ++ toString (base_index + 1)) iw.2.name,
     .killWindow (session ++ ":" ++ toString base_index),
     .moveWindow (session ++ ":" ++ toString (base_index + 1))
       (session ++ ":" ++ toString base_index)]
   else [.newWindow window_target iw.2.name]) ++
  [.listPanes window_target] ++
  (iw.2.panes.enum.map (paneCmds vp window_target (w.basePIndex iw.1))).flatten ++
  (match iw.2.layout with
   | some l => if l ≠ "" then [.selectLayout window_target l] else []
   | none => []) ++
  [.selectPane (window_target ++ "." ++ toString (w.basePIndex iw.1))]

/-- The commands `start` issues once it knows the session does not exist
(tenper.py lines 220-321), in program order, queries included. -/
def setupCmds (w : World) (c : Config) (vp : Option String) : List Cmd :=
  [.newSession c.sessionName,
   .setOption c.sessionName "default-path" (w.expandvars c.projectRoot),
   .setOption c.sessionName "status-left-length" (toString (c.sessionName.length + 2))] ++
  (if c.environment.isEmpty then []
   else c.environment.map (fun kv =>
     .setEnvironment c.sessionName kv.1 (envsub w.osEnv kv.2))) ++
  [.listWindows c.sessionName] ++
  (c.windows.enum.map (windowCmds w c.sessionName vp w.baseIndex)).flatten ++
  [.attachSession c.sessionName]

/-- `start` (tenper.py lines 196-321), applied to the already-read
configuration record: ensure the virtualenv, query `has-session`;
when the session exists only pause and attach, otherwise build the
session and attach. -/
def start (w : World) (c : Config) : Except PyErr (List Eff) := do
  let ct ← confirm_virtualenv w c false
  let session := c.sessionName
  let vp := virtualenvActivate w c
  if w.sessionExists session then
    .ok (ct ++ [.run (.hasSession session),
      .prompt "Session already exists: attaching. (Press any key to continue.)",
      .run (.attachSession session)])
  else
    .ok (ct ++ [.run (.hasSession session)] ++ (setupCmds w c vp).map .run)

/-! ## `parse_args` and `completions` (tenper.py lines 324-398) -/

/-- The handler functions `parse_args` can return. -/
inductive Handler where
  | list_envs
  | completions
  | edit
  | rebuild
  | delete
  | start
deriving DecidableEq, Repr

def subcommandNames : List String := ["edit", "rebuild", "delete"]

/-- `globals()[parsed.command]` for the three subcommands. -/
def handlerOfSubcommand (s : String) : Handler :=
  if s = "edit" then .edit else if s = "rebuild" then .rebuild else .delete

/-- The dispatch of tenper.py lines 361-376: `list` and `completions` are
checked on the project name first, then the subcommand attribute, then
the fallback to `start`; an empty project name is passed on as `None`. -/
def dispatchHandler (projectName : String) (command : Option String) :
    Handler × Option String :=
  (if projectName = "list" then .list_envs
   else if projectName = "completions" then .completions
   else match command with
     | some cmd => handlerOfSubcommand cmd
     | none => .start,
   if projectName = "" then none else some projectName)

/-- `parse_args` (tenper.py lines 324-376).  The argparse layer is
modelled for non-option tokens: one argument is the positional
`project_name`, two arguments are a subcommand and its `project_name`;
a token starting with `-` or any other shape makes argparse exit. -/
def parse_args (args : List String) : Except String (Handler × Option String) :=
  match args with
  | [a] =>
    if isOptionToken a then .error "SystemExit"
    else .ok (dispatchHandler a none)
  | [cmd, p] =>
    if subcommandNames.contains cmd && !isOptionToken p then
      .ok (dispatchHandler p (some cmd))
    else .error "SystemExit"
  | _ => .error "SystemExit"

/-- The line `completions` prints (tenper.py lines 379-398): the four
subcommand words, then the `.yml`-derived environment names, joined by
single spaces. -/
def completionsOutput (w : World) : String :=
  String.intercalate " "
    ((match w.configsListing with
      | none => ["list", "edit", "rebuild", "delete"]
      | some fs => fs.foldl
          (fun acc f => if endsWithYml f then acc ++ [dropLast4 f] else acc)
          ["list", "edit", "rebuild", "delete"]))

def completions (w : World) : List Eff := [.print (completionsOutput w)]

/-! ## The command sequence claimed for `start` on a fresh session

The specification describes the order of the commands `start` issues when
the session does not exist.  The definitions below transcribe that claimed
order (they follow the specification's words; the `list-windows` and
`list-panes` read-only queries of the implementation are not part of the
claimed sequence). -/

def claimedWindowSequence (w : World) (session : String) (vp : Option String)
    (base_index : Nat) (iw : Nat × Window) : List Cmd :=
  let window_target := session ++ ":" ++ toString (base_index + iw.1)
  (if iw.1 = 0 then
    [.newWindow (session ++ ":" ++ toString (base_index + 1)) iw.2.name,
     .killWindow (session ++ ":" ++ toString base_index),
     .moveWindow (session ++ ":" ++ toString (base_index + 1))
       (session ++ ":" ++ toString base_index)]
   else [.newWindow window_target iw.2.name]) ++
  (iw.2.panes.enum.map (paneCmds vp window_target (w.basePIndex iw.1))).flatten ++
  (match iw.2.layout with
   | some l => if l ≠ "" then [.selectLayout window_target l] else []
   | none => []) ++
  [.selectPane (window_target ++ "." ++ toString (w.basePIndex iw.1))]

/-- The claimed order: create the session, set `default-path`, set
`status-left-length`, one `set-environment` per `environment` entry, the
windows in listed order (creation commands, then per pane the split and
`send-keys` commands, then the optional `select-layout` and a
`select-pane`), and finally the `attach-session`. -/
def claimedStartSequence (w : World) (c : Config) : List Cmd :=
  [.newSession c.sessionName,
   .setOption c.sessionName "default-path" (w.expandvars c.projectRoot),
   .setOption c.sessionName "status-left-length" (toString (c.sessionName.length + 2))] ++
  c.environment.map (fun kv =>
    .setEnvironment c.sessionName kv.1 (envsub w.osEnv kv.2)) ++
  (c.windows.enum.map
    (claimedWindowSequence w c.sessionName (virtualenvActivate w c) w.baseIndex)).flatten ++
  [.attachSession c.sessionName]

/-! ## Command classifications used by the theorems -/

/-- The command of a `run` effect. -/
def cmdOfEff : Eff → Option Cmd
  | .run c => some c
  | _ => none

/-- The external commands a trace runs, in order. -/
def effCmds (t : List Eff) : List Cmd := t.filterMap cmdOfEff

/-- The environment-creation tool. -/
def isVenvCreate : Cmd → Bool
  | .virtualenvCreate _ _ _ => true
  | _ => false

/-- A multiplexer command (every command the program runs except the
environment-creation tool and the editor). -/
def isTmuxCmd : Cmd → Bool
  | .virtualenvCreate _ _ _ => false
  | .runEditor _ _ => false
  | _ => true

/-- An effect that runs a multiplexer command. -/
def isTmuxEff (e : Eff) : Bool :=
  match e with
  | .run c => isTmuxCmd c
  | _ => false

/-- An effect that runs the environment-creation tool. -/
def isVenvEff (e : Eff) : Bool :=
  match e with
  | .run c => isVenvCreate c
  | _ => false

/-- The commands the specification's ordering claim enumerates: the
read-only queries (`has-session`, `list-windows`, `list-panes`) and the
environment-creation tool are not among them. -/
def mentionedCmd : Cmd → Bool
  | .hasSession _ => false
  | .listWindows _ => false
  | .listPanes _ => false
  | .virtualenvCreate _ _ _ => false
  | _ => true

/-- The session-modifying commands the idempotence claim rules out. -/
def sessionModifying : Cmd → Bool
  | .newSession _ => true
  | .newWindow _ _ => true
  | .killWindow _ => true
  | .setOption _ _ _ => true
  | .setEnvironment _ _ _ => true
  | .splitWindow _ => true
  | .sendKeys _ _ => true
  | _ => false

/-! # Shared lemmas and worked inputs -/

/-- A worked example world over an empty filesystem. -/
def emptyFsWorld : World where
  home := "/home/user"
  editor := "vi"
  expandvars := id
  osEnv := fun _ => none
  pathExists := fun _ => false
  fileContents := fun _ => none
  sessionExists := fun _ => false
  baseIndex := 0
  basePIndex := fun _ => 0
  configsListing := none

/-- A configuration that requests a virtualenv at the default location. -/
def venvOnlyConfig : Config where
  sessionName := "proj"
  virtualenv := some { pythonBinary := none, sitePackages := false, path := none }
  projectRoot := "/home/user"
  environment := []
  windows := []

theorem mapM_ok_forall₂ {α β ε : Type} (f : α → Except ε β) :
    ∀ (xs : List α) (ys : List β), xs.mapM f = .ok ys →
      List.Forall₂ (fun x y => f x = .ok y) xs ys := by
  intro xs
  induction xs with
  | nil =>
    intro ys h
    simp only [List.mapM_nil, pure, Except.pure, Except.ok.injEq] at h
    rw [← h]
    exact List.Forall₂.nil
  | cons x xs ih =>
    intro ys h
    rw [List.mapM_cons] at h
    cases hx : f x with
    | error e => rw [hx] at h; simp [Bind.bind, Except.bind] at h
    | ok y =>
      rw [hx] at h
      cases hm : List.mapM f xs with
      | error e => rw [hm] at h; simp [Bind.bind, Except.bind] at h
      | ok t =>
        rw [hm] at h
        simp only [Bind.bind, Except.bind, pure, Except.pure, Except.ok.injEq] at h
        rw [← h]
        exact List.Forall₂.cons hx (ih t hm)

/-! # The claims -/

/-- C9: `command_list` returns the template split on single spaces with the
substitutions applied to each segment after the split: whenever it
returns, each returned argument is the formatted corresponding segment,
and the number of arguments equals the number of space-split segments,
so a substituted value containing spaces stays inside one argument and
never increases the number of arguments. -/
theorem command_list_splits_before_subst (kw : List (Chars × Chars)) (t : Chars)
    (l : List Chars) (h : command_list kw t = .ok l) :
    List.Forall₂ (fun part arg => pyFormat kw part = .ok arg) (splitOnChar ' ' t) l ∧
      l.length = (splitOnChar ' ' t).length := by
  have hf := mapM_ok_forall₂ (pyFormat kw) (splitOnChar ' ' t) l h
  exact ⟨hf, hf.length_eq.symm⟩

theorem command_list_splits_before_subst_witness :
    (["echo".data, "Hello, world.".data] : List Chars).length =
      (splitOnChar ' ' "echo {message}".data).length :=
  (command_list_splits_before_subst [("message".data, "Hello, world.".data)]
    "echo {message}".data ["echo".data, "Hello, world.".data] rfl).2

/-- C8 counterexample: `parse_args` does not map the two-argument form
`edit list` to the edit handler; the project name `list` is captured by
the listing handler first. -/
theorem parse_args_edit_list_counterexample :
    parse_args ["edit", "list"] = .ok (Handler.list_envs, some "list") ∧
      Handler.list_envs ≠ Handler.edit := by
  exact ⟨rfl, by decide⟩

/-- C8 (amended): `parse_args` maps `list` to the listing handler and
`completions` to the completions handler; any other single non-option,
non-empty argument to the start-by-name handler with that argument as
the project name; and the two-argument forms `edit`, `rebuild`, `delete`
with a non-option project name to their respective handlers — except
that a project name of `list` or `completions` is captured by the
listing/completions handler even in the two-argument forms. -/
theorem parse_args_dispatch :
    parse_args ["list"] = .ok (Handler.list_envs, some "list") ∧
    parse_args ["completions"] = .ok (Handler.completions, some "completions") ∧
    (∀ p : String, isOptionToken p = false → p ≠ "list" → p ≠ "completions" →
      p ≠ "" → parse_args [p] = .ok (Handler.start, some p)) ∧
    (∀ c p : String, subcommandNames.contains c = true → isOptionToken p = false →
      p ≠ "list" → p ≠ "completions" → p ≠ "" →
      parse_args [c, p] = .ok (handlerOfSubcommand c, some p)) ∧
    (∀ c : String, subcommandNames.contains c = true →
      parse_args [c, "list"] = .ok (Handler.list_envs, some "list") ∧
      parse_args [c, "completions"] = .ok (Handler.completions, some "completions")) := by
  refine ⟨rfl, rfl, ?_, ?_, ?_⟩
  · intro p hopt hl hc he
    simp [parse_args, dispatchHandler, hopt, hl, hc, he]
  · intro c p hsub hopt hl hc he
    have hm : c ∈ subcommandNames := by simpa using hsub
    simp [parse_args, dispatchHandler, hm, hopt, hl, hc, he]
  · intro c hsub
    have hm : c ∈ subcommandNames := by simpa using hsub
    constructor <;> simp [parse_args, dispatchHandler, hm, isOptionToken]

theorem parse_args_dispatch_witness :
    parse_args ["rebuild", "www"] = .ok (Handler.rebuild, some "www") :=
  parse_args_dispatch.2.2.2.1 "rebuild" "www" rfl rfl
    (by decide) (by decide) (by decide)

/-- The environment names the completions claim derives from the
configuration directory: the `.yml` files with the suffix stripped. -/
def claimedEnvNames (w : World) : List String :=
  match w.configsListing with
  | none => []
  | some fs => (fs.filter endsWithYml).map dropLast4

theorem foldl_filter_map_append {α β : Type} (p : α → Bool) (g : α → β) :
    ∀ (fs : List α) (init : List β),
      fs.foldl (fun acc f => if p f then acc ++ [g f] else acc) init
        = init ++ (fs.filter p).map g := by
  intro fs
  induction fs with
  | nil => intro init; simp
  | cons x xs ih =>
    intro init
    by_cases h : p x
    · simp only [List.foldl_cons, if_pos h, ih, List.filter_cons_of_pos h,
        List.map_cons, List.append_assoc, List.singleton_append]
    · simp only [List.foldl_cons, if_neg h, ih, List.filter_cons_of_neg h]

/-- C10: the completions output is the four subcommand names `list`,
`edit`, `rebuild`, `delete` in that order, followed by exactly the
environment names derived from the `.yml` files of the configuration
directory (suffix stripped), joined by single spaces; when the directory
does not exist, only the four subcommand names are printed. -/
theorem completions_output_spec (w : World) :
    completionsOutput w =
      String.intercalate " " (["list", "edit", "rebuild", "delete"] ++ claimedEnvNames w) ∧
    (w.configsListing = none → completionsOutput w = "list edit rebuild delete") := by
  constructor
  · cases h : w.configsListing with
    | none => simp [completionsOutput, claimedEnvNames, h]
    | some fs => simp [completionsOutput, claimedEnvNames, h, foldl_filter_map_append]
  · intro h
    simp [completionsOutput, h]
    rfl

theorem completions_output_spec_witness :
    completionsOutput emptyFsWorld = "list edit rebuild delete" :=
  (completions_output_spec emptyFsWorld).2 rfl

/-- C4: at a configuration that requests a virtualenv whose resolved
directory does not exist, `rebuild` raises an internal error — the
uncaught exception of `shutil.rmtree` on a missing path (tenper.py line
128) — rather than one of the specification's three failure modes. -/
theorem rebuild_missing_venv_raises :
    rebuild emptyFsWorld venvOnlyConfig =
      .error (.fileNotFound "/home/user/.virtualenvs/proj") := rfl

/-- A world in which every directory path exists. -/
def allDirsWorld : World := { emptyFsWorld with pathExists := fun _ => true }

/-- C5 counterexample: with the virtualenv present and the answer `n`,
`delete` still removes the configuration file. -/
theorem delete_declined_removes_config :
    allDirsWorld.pathExists (joinPath (virtualenvsDir allDirsWorld) "proj") = true ∧
    affirmatives.contains (pyStrip "n") = false ∧
    Eff.removeFile (configFilePath allDirsWorld "proj") ∈
      delete allDirsWorld "n" "proj" := by
  refine ⟨rfl, rfl, ?_⟩
  simp [delete, allDirsWorld, emptyFsWorld]

/-- C5 (amended): when `delete` prompts about an existing virtualenv and
the (stripped) answer is not an affirmative, the virtualenv directory is
not removed — no `rmtree` happens at all — but the configuration file is
still removed. -/
theorem delete_declined_spares_virtualenv (w : World) (resp env : String)
    (hv : w.pathExists (joinPath (virtualenvsDir w) env) = true)
    (hr : affirmatives.contains (pyStrip resp) = false) :
    (∀ p, Eff.rmtree p ∉ delete w resp env) ∧
      Eff.removeFile (configFilePath w env) ∈ delete w resp env := by
  have hm : pyStrip resp ∉ affirmatives := by simpa using hr
  simp [delete, hv, hm]

theorem delete_declined_spares_virtualenv_witness :
    Eff.rmtree (joinPath (virtualenvsDir allDirsWorld) "work") ∉
        delete allDirsWorld "no" "work" ∧
      Eff.removeFile (configFilePath allDirsWorld "work") ∈
        delete allDirsWorld "no" "work" :=
  ⟨(delete_declined_spares_virtualenv allDirsWorld "no" "work" rfl rfl).1 _,
   (delete_declined_spares_virtualenv allDirsWorld "no" "work" rfl rfl).2⟩

/-- Whether `config_for`'s result is its own missing-configuration
exception (as opposed to a YAML parse error or a parsed document). -/
def isMissingConfigErr : Except PyErr Yaml → Bool
  | .error (.missingConfig _ _) => true
  | _ => false

/-- A world whose configuration directory holds one malformed file. -/
def badYamlWorld : World :=
  { emptyFsWorld with
    fileContents := fun p =>
      if p = "/home/user/.tenper/proj.yml" then some "a: b: c" else none }

/-- C6 counterexample: a configuration file that exists but holds
malformed YAML makes `config_for` raise even though the file is present,
so raising is not equivalent to the file being missing. -/
theorem config_for_error_despite_file :
    (badYamlWorld.fileContents (configFilePath badYamlWorld "proj")).isSome = true ∧
      config_for badYamlWorld "proj" = .error (.yamlError .badScalar) :=
  ⟨rfl, rfl⟩

/-- C6 (amended): `config_for` raises its missing-configuration error
(reporting the environment and the checked path) exactly when no
configuration file exists; when the file exists it returns the result of
the YAML loader on its content — the parsed document, or the loader's
own parse error on malformed content. -/
theorem config_for_missing_iff (w : World) (env : String) :
    (isMissingConfigErr (config_for w env) = true ↔
      w.fileContents (configFilePath w env) = none) ∧
    (∀ s, w.fileContents (configFilePath w env) = some s →
      config_for w env = (yamlLoad s).mapError PyErr.yamlError) := by
  constructor
  · cases h : w.fileContents (configFilePath w env) with
    | none => simp [config_for, h, isMissingConfigErr]
    | some s =>
      simp only [config_for, h]
      cases hy : yamlLoad s with
      | ok y => simp [isMissingConfigErr, Except.mapError, hy]
      | error e => simp [isMissingConfigErr, Except.mapError, hy]
  · intro s h
    simp [config_for, h]

theorem config_for_missing_iff_witness :
    isMissingConfigErr (config_for emptyFsWorld "proj") = true :=
  (config_for_missing_iff emptyFsWorld "proj").1.mpr rfl

/-! ## The shape of `start`'s trace -/

/-- The effects of `confirm_virtualenv` when not deleting first. -/
def confirmFalseEffs (w : World) (c : Config) : List Eff :=
  match c.virtualenv with
  | none => []
  | some v =>
    if w.pathExists (resolvedVenvPath w c v) then []
    else [.run (venvCreateCmd w c v)]

theorem confirm_virtualenv_false (w : World) (c : Config) :
    confirm_virtualenv w c false = .ok (confirmFalseEffs w c) := by
  unfold confirm_virtualenv confirmFalseEffs
  cases c.virtualenv with
  | none => rfl
  | some v => by_cases h : w.pathExists (resolvedVenvPath w c v) <;> simp [h]

/-- The whole trace of `start`. -/
def startEffs (w : World) (c : Config) : List Eff :=
  confirmFalseEffs w c ++ [.run (.hasSession c.sessionName)] ++
  (if w.sessionExists c.sessionName then
    [.prompt "Session already exists: attaching. (Press any key to continue.)",
     .run (.attachSession c.sessionName)]
  else (setupCmds w c (virtualenvActivate w c)).map .run)

theorem start_eq (w : World) (c : Config) : start w c = .ok (startEffs w c) := by
  unfold start startEffs
  rw [confirm_virtualenv_false]
  by_cases h : w.sessionExists c.sessionName <;>
    simp [h, Bind.bind, Except.bind, List.append_assoc]

theorem effCmds_append (a b : List Eff) : effCmds (a ++ b) = effCmds a ++ effCmds b :=
  List.filterMap_append a b cmdOfEff

theorem effCmds_map_run (l : List Cmd) : effCmds (l.map .run) = l := by
  induction l with
  | nil => rfl
  | cons x xs ih => simp [effCmds, cmdOfEff] at ih ⊢; exact ih

/-! ## Every command of the session build-up, classified -/

theorem mem_ite_singleton {α} {x a : α} {cond : Prop} [Decidable cond]
    (h : x ∈ (if cond then [a] else [])) : x = a := by
  split at h
  · simpa using h
  · simp at h

theorem paneCmds_forall (P : Cmd → Prop)
    (hsplit : ∀ t, P (.splitWindow t)) (hsend : ∀ t cmd, P (.sendKeys t cmd)) :
    ∀ vp wt bp pp, ∀ x ∈ paneCmds vp wt bp pp, P x := by
  intro vp wt bp pp x hx
  simp only [paneCmds, List.mem_append] at hx
  rcases hx with (h | h) | h
  · rw [mem_ite_singleton h]; apply hsplit
  · cases vp with
    | none => simp at h
    | some p => simp at h; rw [h]; apply hsend
  · rw [mem_ite_singleton h]; apply hsend

theorem windowCmds_forall (P : Cmd → Prop)
    (hnew : ∀ t n, P (.newWindow t n)) (hkill : ∀ t, P (.killWindow t))
    (hmove : ∀ a b, P (.moveWindow a b)) (hpanes : ∀ t, P (.listPanes t))
    (hsplit : ∀ t, P (.splitWindow t)) (hsend : ∀ t cmd, P (.sendKeys t cmd))
    (hlay : ∀ t l, P (.selectLayout t l)) (hsel : ∀ t, P (.selectPane t)) :
    ∀ w s vp b iw, ∀ x ∈ windowCmds w s vp b iw, P x := by
  intro w s vp b iw x hx
  simp only [windowCmds, List.mem_append] at hx
  rcases hx with (((h | h) | h) | h) | h
  · split at h <;>
      simp only [List.mem_cons, List.mem_singleton, List.not_mem_nil, or_false] at h
    · rcases h with h | h | h <;> subst h
      · apply hnew
      · apply hkill
      · apply hmove
    · subst h; apply hnew
  · rw [List.mem_singleton] at h
    subst h; apply hpanes
  · rw [List.mem_flatten] at h
    obtain ⟨l, hl, hxl⟩ := h
    rw [List.mem_map] at hl
    obtain ⟨pp, _, rfl⟩ := hl
    exact paneCmds_forall P hsplit hsend _ _ _ pp x hxl
  · cases hLay : iw.2.layout with
    | none => simp [hLay] at h
    | some l =>
      rw [hLay] at h
      rw [mem_ite_singleton h]; apply hlay
  · rw [List.mem_singleton] at h
    subst h; apply hsel

theorem setupCmds_forall (P : Cmd → Prop)
    (hnewS : ∀ s, P (.newSession s)) (hopt : ∀ s o v, P (.setOption s o v))
    (henv : ∀ s k v, P (.setEnvironment s k v)) (hlw : ∀ s, P (.listWindows s))
    (hnew : ∀ t n, P (.newWindow t n)) (hkill : ∀ t, P (.killWindow t))
    (hmove : ∀ a b, P (.moveWindow a b)) (hpanes : ∀ t, P (.listPanes t))
    (hsplit : ∀ t, P (.splitWindow t)) (hsend : ∀ t cmd, P (.sendKeys t cmd))
    (hlay : ∀ t l, P (.selectLayout t l)) (hsel : ∀ t, P (.selectPane t))
    (hatt : ∀ s, P (.attachSession s)) :
    ∀ w c vp, ∀ x ∈ setupCmds w c vp, P x := by
  intro w c vp x hx
  simp only [setupCmds, List.mem_append] at hx
  rcases hx with (((h | h) | h) | h) | h
  · simp only [List.mem_cons, List.not_mem_nil, or_false] at h
    rcases h with h | h | h <;> subst h
    · apply hnewS
    · apply hopt
    · apply hopt
  · split at h
    · simp at h
    · rw [List.mem_map] at h
      obtain ⟨kv, _, rfl⟩ := h
      apply henv
  · rw [List.mem_singleton] at h
    subst h; apply hlw
  · rw [List.mem_flatten] at h
    obtain ⟨l, hl, hxl⟩ := h
    rw [List.mem_map] at hl
    obtain ⟨iw, _, rfl⟩ := hl
    exact windowCmds_forall P hnew hkill hmove hpanes hsplit hsend hlay hsel
      _ _ _ _ iw x hxl
  · rw [List.mem_singleton] at h
    subst h; apply hatt

theorem setupCmds_tmux (w : World) (c : Config) (vp : Option String) :
    ∀ x ∈ setupCmds w c vp, isTmuxCmd x = true :=
  setupCmds_forall (fun x => isTmuxCmd x = true)
    (fun _ => rfl) (fun _ _ _ => rfl) (fun _ _ _ => rfl) (fun _ => rfl)
    (fun _ _ => rfl) (fun _ => rfl) (fun _ _ => rfl) (fun _ => rfl)
    (fun _ => rfl) (fun _ _ => rfl) (fun _ _ => rfl) (fun _ => rfl)
    (fun _ => rfl) w c vp

/-! ## C2: an existing session is only attached to -/

/-- C2: when `has-session` reports the session exists, the only
multiplexer commands `start` runs are the `has-session` query itself and
the attach, and no command of the whole trace is session-modifying (no
new-session, new-window, kill-window, set-option, set-environment,
split-window or send-keys), so the session state is left unchanged. -/
theorem start_existing_session_attaches_only (w : World) (c : Config)
    (h : w.sessionExists c.sessionName = true) :
    (start w c).map (fun t => (effCmds t).filter isTmuxCmd) =
        .ok [.hasSession c.sessionName, .attachSession c.sessionName] ∧
      (∀ t, start w c = .ok t → ∀ x ∈ effCmds t, sessionModifying x = false) := by
  rw [start_eq]
  have hshape : effCmds (startEffs w c) =
      effCmds (confirmFalseEffs w c) ++
        [.hasSession c.sessionName, .attachSession c.sessionName] := by
    unfold startEffs
    rw [if_pos h]
    simp [effCmds_append, effCmds, cmdOfEff]
  constructor
  · simp only [Except.map, hshape, List.filter_append]
    have hcf : (effCmds (confirmFalseEffs w c)).filter isTmuxCmd = [] := by
      unfold confirmFalseEffs
      cases c.virtualenv with
      | none => rfl
      | some v =>
        by_cases hp : w.pathExists (resolvedVenvPath w c v) <;>
          simp [hp, effCmds, cmdOfEff, venvCreateCmd, isTmuxCmd]
    rw [hcf]
    rfl
  · intro t ht x hx
    have ht' : t = startEffs w c := by
      have := ht
      simp only [Except.ok.injEq] at this
      exact this.symm
    rw [ht', hshape] at hx
    rcases List.mem_append.1 hx with hx | hx
    · unfold confirmFalseEffs at hx
      cases hv : c.virtualenv with
      | none => rw [hv] at hx; simp [effCmds] at hx
      | some v =>
        rw [hv] at hx
        by_cases hp : w.pathExists (resolvedVenvPath w c v) <;>
          simp [hp, effCmds, cmdOfEff] at hx
        rw [hx]; rfl
    · simp only [List.mem_cons, List.not_mem_nil, or_false] at hx
      rcases hx with hx | hx <;> subst hx <;> rfl

/-- A world in which every session already exists. -/
def sessionUpWorld : World := { allDirsWorld with sessionExists := fun _ => true }

theorem start_existing_session_attaches_only_witness :
    (start sessionUpWorld venvOnlyConfig).map
        (fun t => (effCmds t).filter isTmuxCmd) =
      .ok [.hasSession "proj", .attachSession "proj"] :=
  (start_existing_session_attaches_only sessionUpWorld venvOnlyConfig rfl).1

/-! ## C7: the virtualenv is ensured before any multiplexer command -/

theorem setupCmds_not_venv (w : World) (c : Config) (vp : Option String) :
    ∀ x ∈ setupCmds w c vp, isVenvCreate x = false :=
  setupCmds_forall (fun x => isVenvCreate x = false)
    (fun _ => rfl) (fun _ _ _ => rfl) (fun _ _ _ => rfl) (fun _ => rfl)
    (fun _ _ => rfl) (fun _ => rfl) (fun _ _ => rfl) (fun _ => rfl)
    (fun _ => rfl) (fun _ _ => rfl) (fun _ _ => rfl) (fun _ => rfl)
    (fun _ => rfl) w c vp

theorem confirmFalseEffs_shape (w : World) (c : Config) :
    (c.virtualenv = none ∧ confirmFalseEffs w c = []) ∨
    (∃ v, c.virtualenv = some v ∧ w.pathExists (resolvedVenvPath w c v) = true ∧
      confirmFalseEffs w c = []) ∨
    (∃ v, c.virtualenv = some v ∧ w.pathExists (resolvedVenvPath w c v) = false ∧
      confirmFalseEffs w c = [.run (venvCreateCmd w c v)]) := by
  unfold confirmFalseEffs
  cases hv : c.virtualenv with
  | none => exact Or.inl ⟨rfl, rfl⟩
  | some v =>
    by_cases hp : w.pathExists (resolvedVenvPath w c v)
    · exact Or.inr (Or.inl ⟨v, rfl, hp, by simp [hp]⟩)
    · exact Or.inr (Or.inr ⟨v, rfl, by simp [hp], by simp [hp]⟩)

/-- How many environment-creation runs the claim expects of `start`. -/
def requiredVenvRuns (w : World) (c : Config) : Nat :=
  match c.virtualenv with
  | none => 0
  | some v => if w.pathExists (resolvedVenvPath w c v) then 0 else 1

/-- C7: `start` runs the environment-creation tool exactly once when the
configuration requests a virtualenv whose resolved directory does not
exist, and never otherwise; and every environment-creation run precedes
the first multiplexer command of the trace. -/
theorem start_ensures_virtualenv_first (w : World) (c : Config) (t : List Eff)
    (h : start w c = .ok t) :
    (t.filter isVenvEff).length = requiredVenvRuns w c ∧
      (t.takeWhile (fun e => !isTmuxEff e)).filter isVenvEff = t.filter isVenvEff := by
  have h2 := start_eq w c
  rw [h] at h2
  injection h2 with h3
  subst h3
  have hBno : ∀ x ∈ (if w.sessionExists c.sessionName then
      [Eff.prompt "Session already exists: attaching. (Press any key to continue.)",
       Eff.run (.attachSession c.sessionName)]
    else (setupCmds w c (virtualenvActivate w c)).map .run), isVenvEff x = false := by
    intro x hx
    split at hx
    · simp only [List.mem_cons, List.not_mem_nil, or_false] at hx
      rcases hx with hx | hx <;> subst hx <;> rfl
    · rw [List.mem_map] at hx
      obtain ⟨cmd, hc, rfl⟩ := hx
      simpa [isVenvEff] using setupCmds_not_venv w c _ cmd hc
  have hfB : (if w.sessionExists c.sessionName then
      [Eff.prompt "Session already exists: attaching. (Press any key to continue.)",
       Eff.run (.attachSession c.sessionName)]
    else (setupCmds w c (virtualenvActivate w c)).map .run).filter isVenvEff = [] := by
    rw [List.filter_eq_nil_iff]
    intro a ha
    simp [hBno a ha]
  unfold startEffs
  rcases confirmFalseEffs_shape w c with ⟨hv, hcf⟩ | ⟨v, hv, hp, hcf⟩ | ⟨v, hv, hp, hcf⟩
  · rw [hcf]
    constructor <;>
      simp [List.filter_append, hfB, isVenvEff, isVenvCreate, requiredVenvRuns, hv,
        List.takeWhile_cons, isTmuxEff, isTmuxCmd, venvCreateCmd]
  · rw [hcf]
    constructor <;>
      simp [List.filter_append, hfB, isVenvEff, isVenvCreate, requiredVenvRuns, hv, hp,
        List.takeWhile_cons, isTmuxEff, isTmuxCmd, venvCreateCmd]
  · rw [hcf]
    constructor <;>
      simp [List.filter_append, hfB, isVenvEff, isVenvCreate, requiredVenvRuns, hv, hp,
        List.takeWhile_cons, isTmuxEff, isTmuxCmd, venvCreateCmd]

theorem start_ensures_virtualenv_first_witness :
    ((startEffs emptyFsWorld venvOnlyConfig).filter isVenvEff).length = 1 :=
  (start_ensures_virtualenv_first emptyFsWorld venvOnlyConfig
    (startEffs emptyFsWorld venvOnlyConfig) (start_eq emptyFsWorld venvOnlyConfig)).1.trans rfl

/-! ## C1: the command order on a fresh session -/

theorem paneCmds_mentioned (vp : Option String) (wt : String) (bp : Nat)
    (pp : Nat × String) : ∀ x ∈ paneCmds vp wt bp pp, mentionedCmd x = true :=
  paneCmds_forall (fun x => mentionedCmd x = true) (fun _ => rfl) (fun _ _ => rfl)
    vp wt bp pp

theorem filter_mentioned_windowCmds (w : World) (s : String) (vp : Option String)
    (b : Nat) (iw : Nat × Window) :
    (windowCmds w s vp b iw).filter mentionedCmd = claimedWindowSequence w s vp b iw := by
  unfold windowCmds claimedWindowSequence
  simp only [List.filter_append]
  have h1 : ((if iw.1 = 0 then
      [Cmd.newWindow (s ++ ":" ++ toString (b + 1)) iw.2.name,
       Cmd.killWindow (s ++ ":" ++ toString b),
       Cmd.moveWindow (s ++ ":" ++ toString (b + 1)) (s ++ ":" ++ toString b)]
    else [Cmd.newWindow (s ++ ":" ++ toString (b + iw.1)) iw.2.name]).filter
        mentionedCmd) =
      (if iw.1 = 0 then
      [Cmd.newWindow (s ++ ":" ++ toString (b + 1)) iw.2.name,
       Cmd.killWindow (s ++ ":" ++ toString b),
       Cmd.moveWindow (s ++ ":" ++ toString (b + 1)) (s ++ ":" ++ toString b)]
    else [Cmd.newWindow (s ++ ":" ++ toString (b + iw.1)) iw.2.name]) := by
    split <;> rfl
  have h2 : ((iw.2.panes.enum.map
        (paneCmds vp (s ++ ":" ++ toString (b + iw.1)) (w.basePIndex iw.1))).flatten.filter
      mentionedCmd) =
      (iw.2.panes.enum.map
        (paneCmds vp (s ++ ":" ++ toString (b + iw.1)) (w.basePIndex iw.1))).flatten := by
    rw [List.filter_flatten]
    congr 1
    rw [List.map_map]
    apply List.map_congr_left
    intro pp _
    exact List.filter_eq_self.mpr (paneCmds_mentioned _ _ _ pp)
  have h3 : ∀ (o : Option String) (tgt : String),
      ((match o with
        | some l => if l ≠ "" then [Cmd.selectLayout tgt l] else []
        | none => []).filter mentionedCmd) =
      (match o with
        | some l => if l ≠ "" then [Cmd.selectLayout tgt l] else []
        | none => []) := by
    intro o tgt
    cases o with
    | none => rfl
    | some l => by_cases hl : l ≠ "" <;> simp [hl, mentionedCmd]
  rw [h1, h2, h3]
  simp [mentionedCmd, List.append_assoc]

theorem filter_mentioned_setupCmds (w : World) (c : Config) :
    (setupCmds w c (virtualenvActivate w c)).filter mentionedCmd =
      claimedStartSequence w c := by
  unfold setupCmds claimedStartSequence
  simp only [List.filter_append]
  have h1 : ((if c.environment.isEmpty then []
      else c.environment.map (fun kv =>
        Cmd.setEnvironment c.sessionName kv.1 (envsub w.osEnv kv.2))).filter
          mentionedCmd) =
      c.environment.map (fun kv =>
        Cmd.setEnvironment c.sessionName kv.1 (envsub w.osEnv kv.2)) := by
    split
    · rename_i he
      rw [List.isEmpty_iff] at he
      rw [he]
      rfl
    · exact List.filter_eq_self.mpr (by
        intro x hx
        rw [List.mem_map] at hx
        obtain ⟨kv, _, rfl⟩ := hx
        rfl)
  have h2 : ((c.windows.enum.map
        (windowCmds w c.sessionName (virtualenvActivate w c) w.baseIndex)).flatten.filter
      mentionedCmd) =
      (c.windows.enum.map
        (claimedWindowSequence w c.sessionName (virtualenvActivate w c) w.baseIndex)).flatten := by
    rw [List.filter_flatten]
    congr 1
    rw [List.map_map]
    apply List.map_congr_left
    intro iw _
    exact filter_mentioned_windowCmds w c.sessionName (virtualenvActivate w c)
      w.baseIndex iw
  rw [h1, h2]
  simp [mentionedCmd, List.append_assoc]

/-- C1: for a configuration whose session does not exist, the commands
the specification's ordering claim enumerates appear in `start`'s trace
exactly in the claimed order: create the session; set `default-path`;
set `status-left-length`; one `set-environment` per `environment` entry;
for each window in listed order the window-creation commands, then per
pane in listed order the split and `send-keys` commands, then the
optional `select-layout` and a `select-pane`; and finally the
`attach-session`.  (The trace's remaining entries are the `has-session`,
`list-windows` and `list-panes` read-only queries and the
environment-creation tool, which the claim's enumeration does not
mention.) -/
theorem start_fresh_session_order (w : World) (c : Config)
    (h : w.sessionExists c.sessionName = false) :
    (start w c).map (fun t => (effCmds t).filter mentionedCmd) =
      .ok (claimedStartSequence w c) := by
  rw [start_eq]
  have hshape : effCmds (startEffs w c) =
      effCmds (confirmFalseEffs w c) ++ [Cmd.hasSession c.sessionName] ++
        setupCmds w c (virtualenvActivate w c) := by
    unfold startEffs
    rw [if_neg (by simp [h])]
    rw [effCmds_append, effCmds_append, effCmds_map_run]
    rfl
  have hcf : (effCmds (confirmFalseEffs w c)).filter mentionedCmd = [] := by
    rcases confirmFalseEffs_shape w c with ⟨_, hcf⟩ | ⟨v, _, _, hcf⟩ | ⟨v, _, _, hcf⟩ <;>
      rw [hcf] <;> rfl
  simp only [Except.map, hshape, List.filter_append, hcf,
    filter_mentioned_setupCmds]
  rfl

theorem start_fresh_session_order_witness :
    (start emptyFsWorld venvOnlyConfig).map
        (fun t => (effCmds t).filter mentionedCmd) =
      .ok (claimedStartSequence emptyFsWorld venvOnlyConfig) :=
  start_fresh_session_order emptyFsWorld venvOnlyConfig rfl

/-! ## C3: the written template round-trips through the YAML loader

The pieces of the written file around the substituted environment name,
and the parse of the concrete remainder of the template. -/

/-- The template's first line (a comment). -/
def templateLine1 : Chars :=
  "# Shows up in 'tmux list-sessions' and on the left side of the status bar.".data

/-- The text of the `session name` line before the substituted name. -/
def sessionKeyText : Chars := "session name: ".data

/-- Everything of the written file after the substituted name. -/
def templatePost : Chars := "

# Optional; if provided, the virtualenv activate script will be sourced in all
# new windows and panes by setting tmux's default-command option.
virtualenv:
    python binary: /usr/bin/python
    site packages?: false
    path: $HOME/.venv #optional path to virtualenv

# When starting a tenper session, all windows and panes will be changed to this
# directory.
project root: $HOME

# Environment variables (only available inside the tmux session).
environment:
    MYKEY: myvalue
    PATH: $PATH:/foo/bar/baz

windows:
  - name: One
    panes:
      - ls -l

  - name: Two
    # Layout of the panes: even-horizontal, even-vertical, main-horizontal,
    # main-vertical, or tiled. You can also specify the layout string in the
    # list-windows command (see the layout section section in tmux's man page).
    layout: main-vertical
    panes:
        - ls
        - vim
        - top
".data

/-- The significant lines of the template after the `session name` line. -/
def templateSigRest : YLines :=
  ((splitOnChar '\n' templatePost).tail).filterMap sigLine

/-- The parsed entries of the template below `session name`. -/
def templateTailEntries : List (Chars × Yaml) :=
  [("virtualenv".data, .map
      [("python binary".data, .str "/usr/bin/python".data),
       ("site packages?".data, .bool false),
       ("path".data, .str "$HOME/.venv".data)]),
   ("project root".data, .str "$HOME".data),
   ("environment".data, .map
      [("MYKEY".data, .str "myvalue".data),
       ("PATH".data, .str "$PATH:/foo/bar/baz".data)]),
   ("windows".data, .seq
      [.map [("name".data, .str "One".data),
             ("panes".data, .seq [.str "ls -l".data])],
       .map [("name".data, .str "Two".data),
             ("layout".data, .str "main-vertical".data),
             ("panes".data, .seq [.str "ls".data, .str "vim".data, .str "top".data])]])]

/-- The characters of a plain environment name: they are YAML-inert (no
space, comment sign, colon, or newline). -/
def safeChar (c : Char) : Bool :=
  isAsciiAlpha c || isAsciiDigit c || c = '-' || c = '_'

theorem safeChar_spec (c : Char) (h : safeChar c = true) :
    c ≠ ' ' ∧ c ≠ '#' ∧ c ≠ ':' ∧ c ≠ '\n' := by
  refine ⟨?_, ?_, ?_, ?_⟩ <;> rintro rfl <;> exact absurd h (by decide)

theorem dropWhile_space_eq_self (l : Chars) (h : ∀ c ∈ l, c ≠ ' ') :
    l.dropWhile (· = ' ') = l := by
  cases l with
  | nil => rfl
  | cons c r => simp [List.dropWhile_cons, h c (List.mem_cons_self c r)]

theorem cutComment_eq_self (l : Chars) (h : ∀ c ∈ l, c ≠ ' ') :
    cutComment l = l := by
  induction l with
  | nil => rfl
  | cons c r ih =>
    have hc : c ≠ ' ' := h c (List.mem_cons_self c r)
    simp only [cutComment, hc, false_and, if_false]
    rw [ih (fun x hx => h x (List.mem_cons_of_mem c hx))]

theorem hasColonSp_eq_false (l : Chars) (h : ∀ c ∈ l, c ≠ ':') :
    hasColonSp l = false := by
  induction l with
  | nil => rfl
  | cons c r ih =>
    have hc : c ≠ ':' := h c (List.mem_cons_self c r)
    simp only [hasColonSp, hc, false_and, if_false]
    exact ih (fun x hx => h x (List.mem_cons_of_mem c hx))

theorem stripTrail_eq_self (l : Chars) (h : ∀ c ∈ l, c ≠ ' ') :
    stripTrail l = l := by
  unfold stripTrail
  rw [dropWhile_space_eq_self l.reverse (fun c hc => h c (List.mem_reverse.1 hc))]
  exact List.reverse_reverse l

theorem scalarCore_safe (env : Chars) (hsafe : ∀ c ∈ env, safeChar c = true) :
    scalarCore (' ' :: env) = env := by
  unfold scalarCore
  have h1 : (' ' :: env).dropWhile (· = ' ') = env.dropWhile (· = ' ') := by
    simp [List.dropWhile_cons]
  have hns : ∀ c ∈ env, c ≠ ' ' := fun c hc => (safeChar_spec c (hsafe c hc)).1
  rw [h1, dropWhile_space_eq_self env hns, cutComment_eq_self env hns,
    stripTrail_eq_self env hns]

/-- A safe name other than the lone `-` never starts like a
block-sequence entry: the dash indicator needs a following space (which
safe characters exclude) or the end of the text. -/
theorem dashStart_safe (env : Chars) (hsafe : ∀ c ∈ env, safeChar c = true)
    (hd : env ≠ ['-']) : dashStart env = false := by
  cases env with
  | nil => rfl
  | cons c r =>
    simp only [dashStart, Bool.and_eq_false_iff]
    by_cases hc : c = '-'
    · subst hc
      right
      cases r with
      | nil => exact absurd rfl hd
      | cons x t =>
        have := (safeChar_spec x (hsafe x (List.mem_cons_of_mem _
          (List.mem_cons_self x t)))).1
        simp [this]
    · left
      simp [hc]

theorem parseScalar_safe (env : Chars) (hne : env ≠ []) (hd : env ≠ ['-'])
    (hsafe : ∀ c ∈ env, safeChar c = true) :
    parseScalar (' ' :: env) = .ok (resolveScalar env) := by
  unfold parseScalar
  have hns : ∀ c ∈ env, c ≠ ' ' := fun c hc => (safeChar_spec c (hsafe c hc)).1
  have h1 : (' ' :: env).dropWhile (· = ' ') = env := by
    simp only [List.dropWhile_cons]
    simp [dropWhile_space_eq_self env hns]
  rw [h1]
  have hh : ¬env.head? = some '#' := by
    cases env with
    | nil => simp at hne
    | cons c r =>
      have := (safeChar_spec c (hsafe c (List.mem_cons_self c r))).2.1
      simpa using this
  rw [if_neg hh, cutComment_eq_self env hns, stripTrail_eq_self env hns]
  rw [if_neg hne]
  rw [hasColonSp_eq_false env (fun c hc => (safeChar_spec c (hsafe c hc)).2.2.1)]
  rw [dashStart_safe env hsafe hd]
  simp

/-! The line decomposition of the written file. -/

theorem splitOnChar_sep_cons (sep : Char) (b : Chars) :
    splitOnChar sep (sep :: b) = [] :: splitOnChar sep b := by
  simp [splitOnChar]

theorem splitOnChar_append_no_sep (sep : Char) (a b : Chars)
    (ha : ∀ c ∈ a, c ≠ sep) :
    splitOnChar sep (a ++ b) =
      (a ++ (splitOnChar sep b).headD []) :: (splitOnChar sep b).tail := by
  induction a with
  | nil =>
    cases h : splitOnChar sep b with
    | nil => exact absurd h (splitOnChar_ne_nil sep b)
    | cons l ls => simp [h]
  | cons c a ih =>
    have hc : c ≠ sep := ha c (List.mem_cons_self c a)
    have ih' := ih (fun x hx => ha x (List.mem_cons_of_mem c hx))
    simp only [List.cons_append, splitOnChar, hc, if_false]
    rw [List.append_eq, ih']

/-- The one step of `parseNode` at the root of the written file. -/
theorem parseNode_root_map (f : Nat) (c : Chars) (rest : YLines) (k raw : Chars)
    (hdash : dashStart c = false) (hfind : findKey [] c = some (k, raw)) :
    parseNode (f + 1) none ((0, c) :: rest) =
      (parseMapEntries f 0 ((0, c) :: rest)).map (fun p => (.map p.1, p.2)) := by
  simp [parseNode, hdash, hfind]

/-- The one step of `parseMapEntries` over an entry with an inline scalar
value. -/
theorem parseMapEntries_cons_inline (f : Nat) (c k raw : Chars) (v : Yaml)
    (rest : YLines) (hdash : dashStart c = false)
    (hfind : findKey [] c = some (k, raw)) (hcore : scalarCore raw ≠ [])
    (hs : parseScalar raw = .ok v) :
    parseMapEntries (f + 1) 0 ((0, c) :: rest) =
      (parseMapEntries f 0 rest).map (fun p => ((k, v) :: p.1, p.2)) := by
  simp only [parseMapEntries, Nat.lt_irrefl, if_false, hdash, hfind, hcore,
    Bool.false_eq_true, ite_false]
  rw [hs]
  cases hrest : parseMapEntries f 0 rest with
  | ok p => simp [hrest, Bind.bind, Except.bind, Except.map]
  | error e => simp [hrest, Bind.bind, Except.bind, Except.map]

set_option maxRecDepth 40000 in
/-- C3 counterexample: for the environment name `#x`, the file `edit`
writes parses, but YAML reads the value of `session name` as a comment:
the parsed value is null, not the name. -/
theorem template_roundtrip_counterexample :
    (match yamlLoadChars (writtenConfig "#x".data) with
      | .ok (.map es) => es.lookup "session name".data
      | _ => none) = some Yaml.null ∧
      some Yaml.null ≠ some (Yaml.str "#x".data) := by
  constructor
  · rfl
  · intro h
    injection h with h2
    exact Yaml.noConfusion h2

set_option maxRecDepth 40000 in
/-- The written file for the name `-` does not parse: on the line
`session name: -`, the lone dash in value position is the scanner error
"sequence entries are not allowed here". -/
theorem written_dash_name_errors :
    yamlLoadChars (writtenConfig ['-']) = .error .seqEntry := rfl

set_option maxRecDepth 40000 in
/-- C3 (amended): for every non-empty environment name of YAML-inert
characters (letters, digits, `-`, `_`) other than the single character
`-` (which YAML scans as a sequence-entry indicator in value position),
provided the loader resolves the name as a plain string (not a boolean,
null, integer or date literal), the file `edit` writes from the template
parses, and the parsed mapping binds `session name` to exactly that
name. -/
theorem template_roundtrip (env : Chars) (hne : env ≠ []) (hd : env ≠ ['-'])
    (hsafe : env.all safeChar = true) (hres : resolveScalar env = .str env) :
    yamlLoadChars (writtenConfig env) =
      .ok (.map (("session name".data, .str env) :: templateTailEntries)) := by
  have hmem : ∀ c ∈ env, safeChar c = true := by
    intro c hc
    exact List.all_eq_true.1 hsafe c hc
  have hnl : ∀ c ∈ env, c ≠ '\n' :=
    fun c hc => (safeChar_spec c (hmem c hc)).2.2.2
  have hform : writtenConfig env =
      templateLine1 ++ ('\n' :: (sessionKeyText ++ (env ++ templatePost))) := rfl
  have hsplit : splitOnChar '\n' (writtenConfig env) =
      templateLine1 :: (sessionKeyText ++ env) ::
        (splitOnChar '\n' templatePost).tail := by
    rw [hform]
    rw [splitOnChar_append_no_sep '\n' templateLine1 _ (by decide)]
    rw [splitOnChar_sep_cons]
    rw [splitOnChar_append_no_sep '\n' sessionKeyText _ (by decide)]
    rw [splitOnChar_append_no_sep '\n' env _ hnl]
    have hpd : (splitOnChar '\n' templatePost).headD [] = [] := rfl
    rw [hpd]
    simp
  have hsig : (splitOnChar '\n' (writtenConfig env)).filterMap sigLine =
      (0, sessionKeyText ++ env) :: templateSigRest := by
    rw [hsplit]
    rw [List.filterMap_cons_none (by rfl)]
    have e2 : sigLine (sessionKeyText ++ env) = some (0, sessionKeyText ++ env) := rfl
    rw [List.filterMap_cons_some e2]
    rfl
  have hfind : findKey [] (sessionKeyText ++ env) =
      some ("session name".data, ' ' :: env) := rfl
  have hdash : dashStart (sessionKeyText ++ env) = false := rfl
  have hcore : scalarCore (' ' :: env) ≠ [] := by
    rw [scalarCore_safe env hmem]
    exact hne
  have hs : parseScalar (' ' :: env) = .ok (.str env) := by
    rw [parseScalar_safe env hne hd hmem, hres]
  have hrest : parseMapEntries 158 0 templateSigRest =
      .ok (templateTailEntries, []) := rfl
  unfold yamlLoadChars parseYamlLines
  rw [hsig]
  have hlen : (8 * ((0, sessionKeyText ++ env) :: templateSigRest).length + 8) =
      159 + 1 := by
    rw [List.length_cons]
    rfl
  rw [hlen]
  rw [parseNode_root_map 159 _ _ _ _ hdash hfind]
  have h159 : (159 : Nat) = 158 + 1 := rfl
  rw [h159]
  rw [parseMapEntries_cons_inline 158 _ _ _ _ _ hdash hfind hcore hs]
  rw [hrest]
  rfl

set_option maxRecDepth 40000 in
theorem template_roundtrip_witness :
    yamlLoadChars (writtenConfig "myproj".data) =
      .ok (.map (("session name".data, .str "myproj".data) :: templateTailEntries)) :=
  template_roundtrip "myproj".data (by decide) (by decide) (by decide) rfl

end Tenper
